import Mathlib

/-!
Shallow embedding of the latency-topology-visualizer repository.

Part 1: the latency history normalizer of
src/app/api/latency/history/route.ts. JSON payloads are modelled by the
inductive `Json`; JavaScript numbers are modelled as exact rationals
(double rounding and overflow to Infinity are elided), and an absent
object property (JS undefined) is modelled by `Option.none`.
-/

/-- A parsed JSON value. JS `undefined` is not a JSON value; absent
properties are `none : Option Json` at use sites. -/
inductive Json where
  | null
  | bool (b : Bool)
  | num (q : ℚ)
  | str (s : String)
  | arr (items : List Json)
  | obj (fields : List (String × Json))

/-- Property access `value[key]` on a NON-NULL value: `none` models JS
`undefined` (access on primitives boxes and never throws). JS property
access on null throws a TypeError; call sites where the source does a
bare access on a possibly-null value guard with `Json.isNull` and
return `JsOutcome.typeError`. -/
def Json.get : Json → String → Option Json
  | .obj fields, key => fields.lookup key
  | _, _ => none

/-- Is the value the JSON literal null? Bare property access on it
throws a TypeError in JS. -/
def Json.isNull : Json → Bool
  | .null => true
  | _ => false

/-- Outcome of a JS computation: a value, or a thrown TypeError from
property access on null. -/
inductive JsOutcome (α : Type) where
  | ok (value : α)
  | typeError
deriving DecidableEq

/-- Mapping over a successful outcome. -/
def JsOutcome.map {α β : Type} (f : α → β) : JsOutcome α → JsOutcome β
  | .ok value => .ok (f value)
  | .typeError => .typeError

/-- Property access through an optional value, modelling `value?.key`. -/
def optGet (value : Option Json) (key : String) : Option Json :=
  value.bind (Json.get · key)

/-- JS truthiness of a value: null, false, 0 and the empty string are
falsy; arrays and objects are always truthy. -/
def jsTruthyV : Json → Bool
  | .null => false
  | .bool b => b
  | .num q => decide (q ≠ 0)
  | .str s => s != ""
  | .arr _ => true
  | .obj _ => true

/-- Whitespace trimming on the character list (JS
`String.prototype.trim`, restricted to ASCII whitespace). -/
def trimChars (cs : List Char) : List Char :=
  (((cs.dropWhile Char.isWhitespace).reverse).dropWhile Char.isWhitespace).reverse

/-- JS `value.trim()`. -/
def jsTrim (s : String) : String := String.mk (trimChars s.toList)

/-- JS `value.split(',')` on the character list: comma-separated groups,
with the empty string splitting to one empty group. -/
def splitOnCommaList : List Char → List (List Char)
  | [] => [[]]
  | c :: rest =>
    if c = ',' then [] :: splitOnCommaList rest
    else
      match splitOnCommaList rest with
      | [] => [[c]]
      | g :: gs => (c :: g) :: gs

/-- JS `value.split(',')`. -/
def jsSplitCommas (s : String) : List String :=
  (splitOnCommaList s.toList).map String.mk

/-- Truthiness of a possibly-undefined value (`undefined` is falsy). -/
def jsTruthy (value : Option Json) : Bool :=
  match value with
  | none => false
  | some v => jsTruthyV v

/-- JS `a ?? b`: `b` exactly when `a` is null or undefined. -/
def jsCoalesce (a b : Option Json) : Option Json :=
  match a with
  | none => b
  | some .null => b
  | some v => some v

/-- Value of a hexadecimal digit character (0 for non-digits; callers
check digit-hood first). -/
def digitVal (c : Char) : ℕ :=
  if c.isDigit then c.toNat - 48
  else if Char.toNat 'a' ≤ c.toNat && c.toNat ≤ Char.toNat 'f' then c.toNat - 87
  else if Char.toNat 'A' ≤ c.toNat && c.toNat ≤ Char.toNat 'F' then c.toNat - 55
  else 0

/-- Digit string in the given base as a natural number. -/
def digitsToNat (base : ℕ) (cs : List Char) : ℕ :=
  cs.foldl (fun acc c => acc * base + digitVal c) 0

/-- Is `c` a digit of the given base (2, 8, 10 or 16)? -/
def isRadixDigit (base : ℕ) (c : Char) : Bool :=
  if base = 16 then
    c.isDigit || (Char.toNat 'a' ≤ c.toNat && c.toNat ≤ Char.toNat 'f')
      || (Char.toNat 'A' ≤ c.toNat && c.toNat ≤ Char.toNat 'F')
  else c.isDigit && c.toNat - 48 < base

/-- Exponent suffix of a JS decimal literal: empty, or e/E with optional
sign and at least one digit reaching the end of the string. -/
def applyExponent (m : ℚ) : List Char → Option ℚ
  | [] => some m
  | e :: rest =>
    if e = 'e' || e = 'E' then
      let core : List Char → Option ℚ := fun ds =>
        if !ds.isEmpty && ds.all Char.isDigit then
          some (m * (10 : ℚ) ^ ((digitsToNat 10 ds : ℤ)))
        else none
      match rest with
      | '+' :: ds => core ds
      | '-' :: ds =>
        if !ds.isEmpty && ds.all Char.isDigit then
          some (m * (10 : ℚ) ^ (-(digitsToNat 10 ds : ℤ)))
        else none
      | ds => core ds
    else none

/-- Decimal part of a JS numeric literal: digits, optional fraction,
optional exponent; the whole list must be consumed. -/
def parseDecimalCore (cs : List Char) : Option ℚ :=
  let intPart := cs.takeWhile Char.isDigit
  let rest1 := cs.dropWhile Char.isDigit
  match rest1 with
  | '.' :: rest2 =>
    let fracPart := rest2.takeWhile Char.isDigit
    let rest3 := rest2.dropWhile Char.isDigit
    if intPart.isEmpty && fracPart.isEmpty then none
    else
      applyExponent
        ((digitsToNat 10 intPart : ℚ)
          + (digitsToNat 10 fracPart : ℚ) / (10 : ℚ) ^ fracPart.length)
        rest3
  | _ =>
    if intPart.isEmpty then none else applyExponent (digitsToNat 10 intPart : ℚ) rest1

/-- Radix-prefixed JS integer literal body (after 0x / 0o / 0b). -/
def parseRadix (base : ℕ) (cs : List Char) : Option ℚ :=
  if !cs.isEmpty && cs.all (isRadixDigit base) then some (digitsToNat base cs : ℚ)
  else none

/-- JS `Number(string)` restricted to finite results: trims, empty maps
to 0, then a signed decimal literal (with optional fraction/exponent) or
an unsigned 0x/0o/0b radix literal; anything else (including Infinity)
is `none`, matching the `Number.isFinite` guard at every call site.
Values are exact rationals; double rounding is elided. -/
def parseJsNumber (s : String) : Option ℚ :=
  match trimChars s.toList with
  | [] => some 0
  | '+' :: cs => parseDecimalCore cs
  | '-' :: cs => (parseDecimalCore cs).map Neg.neg
  | '0' :: x :: cs =>
    if x = 'x' || x = 'X' then parseRadix 16 cs
    else if x = 'o' || x = 'O' then parseRadix 8 cs
    else if x = 'b' || x = 'B' then parseRadix 2 cs
    else parseDecimalCore ('0' :: x :: cs)
  | cs => parseDecimalCore cs

mutual

/-- JS `String(value)` for values reaching `toArrayOfStrings`
(route.ts). Number rendering uses the rational notation; only string
passthrough and (non)emptiness of the result are relied on downstream. -/
def jsToString : Json → String
  | .null => "null"
  | .bool b => if b then "true" else "false"
  | .num q => toString q
  | .str s => s
  | .arr items => String.intercalate "," (jsToStringItems items)
  | .obj _ => "[object Object]"

/-- Array elements under `Array.prototype.toString`: null renders as the
empty string inside an array join. -/
def jsToStringItems : List Json → List String
  | [] => []
  | .null :: rest => "" :: jsToStringItems rest
  | j :: rest => jsToString j :: jsToStringItems rest

end

/-- `parseNullableNumber` (route.ts): null/undefined map to null;
numbers pass through (finite by the rational model); strings go through
`Number(...)` with a finiteness check; booleans coerce to 0/1; arrays
coerce through their string join, as JS `Number` does; plain objects
are modelled as NaN (null), matching `Number({}) = NaN`. -/
def parseNullableNumber : Option Json → Option ℚ
  | none => none
  | some .null => none
  | some (.num q) => some q
  | some (.str s) => parseJsNumber s
  | some (.bool b) => some (if b then 1 else 0)
  | some (.arr items) => parseJsNumber (jsToString (.arr items))
  | some (.obj _) => none

/-- One item of `toArrayOfStrings` (route.ts): a string passes through,
otherwise `String(item ?? '')` collapses null to the empty string and
stringifies the rest. -/
def stringifyArrayItem : Json → String
  | .str s => s
  | .null => ""
  | j => jsToString j

/-- `toArrayOfStrings` (route.ts): non-arrays give []; items are
stringified, trimmed, and empties dropped. -/
def toArrayOfStrings (value : Option Json) : List String :=
  match value with
  | some (.arr items) =>
    ((items.map stringifyArrayItem).map jsTrim).filter (fun s => s != "")
  | _ => []

/-- `toArrayOfNumbers` (route.ts): non-arrays give []; each item goes
through `parseNullableNumber`. -/
def toArrayOfNumbers (value : Option Json) : List (Option ℚ)
  := match value with
  | some (.arr items) => items.map (fun item => parseNullableNumber (some item))
  | _ => []

/-- Timestamp of an output point: either a value passed through from the
payload, or `new Date(ms).toISOString()` of a synthetic instant, which
is injective in `ms`; the underlying instant is kept instead of the
rendered ISO text. -/
inductive Timestamp where
  | fromPayload (j : Json)
  | iso (ms : ℚ)

/-- The payload text of a passthrough string timestamp (used to observe
concrete outputs without deciding equality of raw `Json`). -/
def Timestamp.text : Timestamp → Option String
  | .fromPayload (.str s) => some s
  | _ => none

/-- The synthetic instant of an interpolated timestamp, in epoch
milliseconds. -/
def Timestamp.instant : Timestamp → Option ℚ
  | .iso ms => some ms
  | _ => none

/-- `LatencyHistoryPoint` (types/latency.ts), with numbers as rationals
and null as `none`. -/
structure LatencyHistoryPoint where
  timestamp : Timestamp
  latencyIdle : Option ℚ
  latencyLoaded : Option ℚ
  jitterIdle : Option ℚ

/-- `HistoryStats` (types/latency.ts). -/
structure HistoryStats where
  min : Option ℚ
  max : Option ℚ
  avg : Option ℚ
  samples : ℕ
deriving DecidableEq

/-- The `{dateStart, dateEnd}` context of `extractHistoryPoints`, as
epoch milliseconds of the two dates. -/
structure HistoryContext where
  dateStartMs : ℚ
  dateEndMs : ℚ
deriving DecidableEq

/-- `normalizeHistoryPoint` (route.ts). -/
def normalizeHistoryPoint (timestamp : Json) (latencyIdle latencyLoaded jitterIdle : Option Json) :
    LatencyHistoryPoint :=
  { timestamp := .fromPayload timestamp
    latencyIdle := parseNullableNumber latencyIdle
    latencyLoaded := parseNullableNumber latencyLoaded
    jitterIdle := parseNullableNumber jitterIdle }

/-- One entry of an array-shaped `serie_0` (the body of the `.map` at
route.ts lines 148-172): timestamp from `dimensions.datetime` then
`dimensions.timestamp` then `entry.timestamp`, the entry dropped when
that is falsy; metrics parsed from `entry.metrics`. -/
def serieEntryPoint (entry : Json) : Option LatencyHistoryPoint :=
  let dimensions := entry.get "dimensions"
  let metrics := entry.get "metrics"
  let timestamp :=
    jsCoalesce (optGet dimensions "datetime")
      (jsCoalesce (optGet dimensions "timestamp") (entry.get "timestamp"))
  if jsTruthy timestamp then
    some (normalizeHistoryPoint ((timestamp).getD .null)
      (optGet metrics "latencyIdle") (optGet metrics "latencyLoaded")
      (optGet metrics "jitterIdle"))
  else none

/-- The index-aligned point-building loop shared by the parallel-array
path (route.ts lines 205-218) and `extractPercentileSeries` (lines
232-243): one point per timestamp; a metric array contributes its parsed
entry at the same index, or null past its end. -/
def indexAlignedPoints (timestamps : List String)
    (idleVals loadedVals jitterVals : List (Option ℚ)) : List LatencyHistoryPoint :=
  (List.range timestamps.length).map fun index =>
    { timestamp := .fromPayload (.str (timestamps.getD index ""))
      latencyIdle := idleVals.getD index none
      latencyLoaded := loadedVals.getD index none
      jitterIdle := jitterVals.getD index none }

/-- `extractPercentileSeries` (route.ts): timestamps with p50/p75/p25
metric columns; empty when the timestamp list is empty. -/
def extractPercentileSeries (rawSerie : Json) : List LatencyHistoryPoint :=
  let timestamps := toArrayOfStrings (rawSerie.get "timestamps")
  if timestamps.isEmpty then []
  else
    indexAlignedPoints timestamps
      (toArrayOfNumbers (rawSerie.get "p50"))
      (toArrayOfNumbers (rawSerie.get "p75"))
      (toArrayOfNumbers (rawSerie.get "p25"))

/-- `normalizeHistogramEntries` (route.ts): arrays pass through;
otherwise paired `buckets`/`values` arrays of equal length are zipped
into `{bucket, value}` objects, else `buckets` alone, else `data`,
else nothing. Falsy and primitive inputs give []. -/
def normalizeHistogramEntries (histogram : Json) : List Json :=
  if !jsTruthyV histogram then []
  else
    match histogram with
    | .arr items => items
    | .obj _ =>
      match histogram.get "buckets" with
      | some (.arr buckets) =>
        (match histogram.get "values" with
         | some (.arr values) =>
           if buckets.length = values.length then
             (buckets.zip values).map fun p => Json.obj [("bucket", p.1), ("value", p.2)]
           else buckets
         | _ => buckets)
      | _ =>
        match histogram.get "data" with
        | some (.arr data) => data
        | _ => []
    | _ => []

/-- Value of a matched numeric token: integer digits plus an optional
`.digits` fraction immediately following. -/
def tokenValue (intPart after : List Char) : ℚ :=
  match after with
  | '.' :: d :: rest2 =>
    if d.isDigit then
      let fracPart := (d :: rest2).takeWhile Char.isDigit
      (digitsToNat 10 intPart : ℚ) + (digitsToNat 10 fracPart : ℚ) / (10 : ℚ) ^ fracPart.length
    else (digitsToNat 10 intPart : ℚ)
  | _ => (digitsToNat 10 intPart : ℚ)

/-- The first numeric token of a string, as matched left to right by the
regex `-?\d+(\.\d+)?` of `parseHistogramNumber` (route.ts). -/
def firstNumericToken : List Char → Option ℚ
  | [] => none
  | '-' :: c :: rest =>
    if c.isDigit then
      let intPart := (c :: rest).takeWhile Char.isDigit
      let after := (c :: rest).dropWhile Char.isDigit
      some (-(tokenValue intPart after))
    else firstNumericToken (c :: rest)
  | c :: rest =>
    if c.isDigit then
      let intPart := (c :: rest).takeWhile Char.isDigit
      let after := (c :: rest).dropWhile Char.isDigit
      some (tokenValue intPart after)
    else firstNumericToken rest

/-- `parseHistogramNumber` (route.ts): finite numbers pass; strings
yield their first numeric token; everything else is null. -/
def parseHistogramNumber : Option Json → Option ℚ
  | some (.num q) => some q
  | some (.str s) => firstNumericToken s.toList
  | _ => none

/-- The candidate scan of `parseLatencyFromHistogramEntry` (route.ts):
first candidate that parses wins. -/
def firstParsedCandidate : List (Option Json) → Option ℚ
  | [] => none
  | c :: rest =>
    match parseHistogramNumber c with
    | some q => some q
    | none => firstParsedCandidate rest

/-- `parseLatencyFromHistogramEntry` (route.ts). The accesses
`entry.bucketStart`, ... are bare, so a null entry (which
`normalizeHistogramEntries` passes through from a raw array) throws a
TypeError; any other entry yields the first candidate that parses, else
null. -/
def parseLatencyFromHistogramEntry (entry : Json) : JsOutcome (Option ℚ) :=
  if entry.isNull then .typeError
  else .ok (firstParsedCandidate
    [entry.get "bucketStart", entry.get "bucket_start", entry.get "bucket",
     entry.get "bucketEnd", entry.get "bucket_end", entry.get "latency",
     entry.get "valueLatency", entry.get "value_latency", entry.get "value",
     entry.get "avgLatency", entry.get "avg_latency"])

/-- The `entries.map((entry, index) => ...)` loop of
`extractHistogramPoints` (route.ts), processing entries in order from
the given index; the first TypeError aborts the whole call. -/
def histTraverse (startMs step : ℚ) : ℕ → List Json → JsOutcome (List LatencyHistoryPoint)
  | _, [] => .ok []
  | index, entry :: rest =>
    match parseLatencyFromHistogramEntry entry with
    | .typeError => .typeError
    | .ok latency =>
      match histTraverse startMs step (index + 1) rest with
      | .typeError => .typeError
      | .ok points =>
        .ok ({ timestamp := .iso (startMs + step * (index : ℚ))
               latencyIdle := latency
               latencyLoaded := none
               jitterIdle := none } :: points)

/-- `extractHistogramPoints` (route.ts): synthetic timestamps spread
from `dateStart` with step `(end - start) / (total - 1)` when more than
one entry, step 0 otherwise; throws iff some consumed entry is null. -/
def extractHistogramPoints (histogram : Json) (context : HistoryContext) :
    JsOutcome (List LatencyHistoryPoint) :=
  let entries := normalizeHistogramEntries histogram
  if entries.isEmpty then .ok []
  else
    let startMs := context.dateStartMs
    let endMs := context.dateEndMs
    let total := entries.length
    let step : ℚ := if total > 1 then (endMs - startMs) / ((total : ℚ) - 1) else 0
    histTraverse startMs step 0 entries

/-- `extractHistoryPoints` (route.ts): the shape dispatch. `serie_0`
array entries are mapped and nulls filtered; a truthy non-array
`serie_0` goes through the percentile series and, when that is empty,
the parallel-array aliases latencyIdle / latency_idle / values; the
histogram is consulted only when `serie_0` is falsy and `histogram_0`
truthy. The access `payload.result` is bare, so a null payload (a JSON
body that is the literal null) throws a TypeError before any shape
check. -/
def extractHistoryPoints (payload : Json) (context : HistoryContext) :
    JsOutcome (List LatencyHistoryPoint) :=
  if payload.isNull then .typeError
  else
    let result := payload.get "result"
    if !jsTruthy result then .ok []
    else
      let rawSerie := optGet result "serie_0"
      let rawHistogram := optGet result "histogram_0"
      if !jsTruthy rawSerie && jsTruthy rawHistogram then
        extractHistogramPoints ((rawHistogram).getD .null) context
      else if !jsTruthy rawSerie then .ok []
      else
        match (rawSerie).getD .null with
        | .arr entries => .ok (entries.filterMap serieEntryPoint)
        | serie =>
          let percentilePoints := extractPercentileSeries serie
          .ok (if !percentilePoints.isEmpty then percentilePoints
            else
              indexAlignedPoints (toArrayOfStrings (serie.get "timestamps"))
                (toArrayOfNumbers
                  (jsCoalesce (serie.get "latencyIdle")
                    (jsCoalesce (serie.get "latency_idle") (serie.get "values"))))
                (toArrayOfNumbers
                  (jsCoalesce (serie.get "latencyLoaded") (serie.get "latency_loaded")))
                (toArrayOfNumbers
                  (jsCoalesce (serie.get "jitterIdle") (serie.get "jitter_idle"))))

/-- `computeHistoryStats` (route.ts): filter the non-null idle
latencies, then fold min/max and average; all-null stats with count 0 on
an empty filtered list. -/
def computeHistoryStats (points : List LatencyHistoryPoint) : HistoryStats :=
  let latencyValues := points.filterMap (·.latencyIdle)
  match latencyValues with
  | [] => { min := none, max := none, avg := none, samples := 0 }
  | v :: vs =>
    { min := some (vs.foldl min v)
      max := some (vs.foldl max v)
      avg := some ((latencyValues.foldl (· + ·) 0) / (latencyValues.length : ℚ))
      samples := latencyValues.length }

/-!
Part 2: the geodesic ring generator `generateCircleCoordinates`
(components/ExchangeMap.tsx) over the real numbers, and the
request-decision logic of the two API route handlers.
-/

/-- `EARTH_RADIUS_KM` (ExchangeMap.tsx). -/
def EARTH_RADIUS_KM : ℝ := 6371

/-- JS `Math.atan2 y x`, with range `(-pi, pi]` on the reals, modelled
by the complex argument of `x + y*i`. -/
noncomputable def atan2 (y x : ℝ) : ℝ := Complex.arg ⟨x, y⟩

/-- Truncation toward zero, as JS `%` applies to its quotient. -/
noncomputable def jsTrunc (x : ℝ) : ℝ := if 0 ≤ x then (⌊x⌋ : ℝ) else (⌈x⌉ : ℝ)

/-- JS remainder `a % b`: `a - b * trunc (a / b)`. -/
noncomputable def jsMod (a b : ℝ) : ℝ := a - b * jsTrunc (a / b)

/-- One output point of `generateCircleCoordinates` (ExchangeMap.tsx)
at loop index `i`: spherical destination point at bearing
`2 * pi * i / steps` and angular distance `radiusKm / EARTH_RADIUS_KM`,
with the longitude brought into degrees via `(x + 540) % 360 - 180`.
The pair is (longitude, latitude) in degrees. -/
noncomputable def circlePoint (center : ℝ × ℝ) (radiusKm : ℝ) (steps : ℕ) (i : ℕ) : ℝ × ℝ :=
  let centerLatRad := center.2 * Real.pi / 180
  let centerLngRad := center.1 * Real.pi / 180
  let angularDistance := radiusKm / EARTH_RADIUS_KM
  let bearing := 2 * Real.pi * (i : ℝ) / (steps : ℝ)
  let pointLat := Real.arcsin
    (Real.sin centerLatRad * Real.cos angularDistance
      + Real.cos centerLatRad * Real.sin angularDistance * Real.cos bearing)
  let pointLng := centerLngRad
    + atan2 (Real.sin bearing * Real.sin angularDistance * Real.cos centerLatRad)
        (Real.cos angularDistance - Real.sin centerLatRad * Real.sin pointLat)
  let lngDeg := jsMod (pointLng * 180 / Real.pi + 540) 360 - 180
  let latDeg := pointLat * 180 / Real.pi
  (lngDeg, latDeg)

/-- `generateCircleCoordinates` (ExchangeMap.tsx): the loop runs `i`
from 0 to `steps` inclusive. -/
noncomputable def generateCircleCoordinates (center : ℝ × ℝ) (radiusKm : ℝ) (steps : ℕ) :
    List (ℝ × ℝ) :=
  (List.range (steps + 1)).map (circlePoint center radiusKm steps)

/-- Every longitude of the list lies within [-180, 180]. -/
def lngWithinRange (points : List (ℝ × ℝ)) : Prop :=
  ∀ p ∈ points, -180 ≤ p.1 ∧ p.1 ≤ 180

/-- A cloud region of `CLOUD_REGIONS` (data/network.ts), restricted to
the fields the route handlers consult. -/
structure CloudRegion where
  id : String
  countryCode : String
deriving DecidableEq

/-- `CLOUD_REGIONS` (data/network.ts): ids and country codes, in the
order of the source list. -/
def CLOUD_REGIONS : List CloudRegion :=
  [⟨"aws-virginia", "US"⟩, ⟨"aws-london", "GB"⟩, ⟨"aws-frankfurt", "DE"⟩,
   ⟨"gcp-singapore", "SG"⟩, ⟨"gcp-california", "US"⟩, ⟨"gcp-hongkong", "HK"⟩,
   ⟨"azure-amsterdam", "NL"⟩, ⟨"azure-hongkong", "HK"⟩, ⟨"azure-zurich", "CH"⟩,
   ⟨"azure-seoul", "KR"⟩]

/-- Outcome of the history route handler `GET`
(app/api/latency/history/route.ts) up to the point where the upstream
API would be contacted: the missing-token and unknown-region guards run
in that order before any network activity. -/
inductive HistoryDecision where
  | tokenError
  | unknownRegion
  | contactUpstream (region : CloudRegion)
deriving DecidableEq

/-- The guard sequence of the history route `GET`: token check, then
`CLOUD_REGIONS.find` on the `region` query parameter (absent parameter
coalesces to the empty string). -/
def historyRouteDecision (tokenConfigured : Bool) (regionParam : Option String) :
    HistoryDecision :=
  if !tokenConfigured then .tokenError
  else
    let regionId := regionParam.getD ""
    match CLOUD_REGIONS.find? (fun item => item.id == regionId) with
    | none => .unknownRegion
    | some region => .contactUpstream region

/-- HTTP status of a history route decision; `none` when the status
depends on the upstream response. -/
def historyStatus : HistoryDecision → Option ℕ
  | .tokenError => some 500
  | .unknownRegion => some 400
  | .contactUpstream _ => none

/-- The requested region-id list of the snapshot route `GET`
(data/network.ts): a truthy `regions` parameter is split on commas,
trimmed and cleared of empties; otherwise every region id is used. -/
def requestedRegionIds (regionsParam : Option String) : List String :=
  match regionsParam with
  | some s =>
    if s != "" then ((jsSplitCommas s).map jsTrim).filter (fun v => v != "")
    else CLOUD_REGIONS.map (·.id)
  | none => CLOUD_REGIONS.map (·.id)

/-- De-duplication via `new Set`, which keeps first-insertion order. -/
def uniqueFirst (xs : List String) : List String :=
  xs.foldl (fun acc x => if x ∈ acc then acc else acc ++ [x]) []

/-- The known regions matched by the snapshot route: unknown ids are
silently dropped by the `filter(Boolean)` after the `find` map. -/
def knownRegionsOf (regionsParam : Option String) : List CloudRegion :=
  (uniqueFirst (requestedRegionIds regionsParam)).filterMap
    (fun regionId => CLOUD_REGIONS.find? (fun item => item.id == regionId))

/-- Status of the snapshot route `GET` (data/network.ts): 500 without a
token; 400 when no requested id matches a known region; otherwise 200 —
both the cached and the fresh path return 200, and
`fetchLatestHistorySnapshot` catches every per-region failure, so no
other status is reachable. -/
def snapshotRouteStatus (tokenConfigured : Bool) (regionsParam : Option String) : ℕ :=
  if !tokenConfigured then 500
  else if (knownRegionsOf regionsParam).isEmpty then 400
  else 200

/-!
Part 3: auxiliary observation predicates and the concrete payloads the
claims are exercised on. All definitions still precede all theorems.
-/

/-- Is the value a JS array? (`Array.isArray`). -/
def Json.isArr : Json → Bool
  | .arr _ => true
  | _ => false

/-- A payload `{ result: { serie_0?, histogram_0? } }` with the two
optional upstream fields. -/
def payloadWith (serie histogram : Option Json) : Json :=
  .obj [("result", .obj
    ((match serie with | none => [] | some s => [("serie_0", s)])
      ++ (match histogram with | none => [] | some h => [("histogram_0", h)])))]

/-- Both optional rationals are present and ordered. -/
def optLE (a b : Option ℚ) : Bool :=
  match a, b with
  | some x, some y => decide (x ≤ y)
  | _, _ => false

/-- The optional rational is present and occurs in the list. -/
def optMem (a : Option ℚ) (l : List ℚ) : Bool :=
  match a with
  | some x => decide (x ∈ l)
  | none => false

/-- A latency point with an idle latency only, for concrete inputs. -/
def idlePoint (latencyIdle : Option ℚ) : LatencyHistoryPoint :=
  { timestamp := .fromPayload (.str "t"), latencyIdle := latencyIdle
    latencyLoaded := none, jitterIdle := none }

/-- The context [0 ms, 1000 ms] used by the concrete examples. -/
def exampleContext : HistoryContext := ⟨0, 1000⟩

/-- The parallel-array payload of the spec example:
`{timestamps:["t1","t2"], latencyIdle:[10,20]}` as `serie_0`. -/
def parallelSerie : Json :=
  .obj [("timestamps", .arr [.str "t1", .str "t2"]),
        ("latencyIdle", .arr [.num 10, .num 20])]

/-- `parallelSerie` wrapped as a full response payload. -/
def parallelPayload : Json := .obj [("result", .obj [("serie_0", parallelSerie)])]

/-- A serie object carrying both the `latencyIdle` parallel array and a
`p50` percentile column, to separate the two priorities. -/
def aliasSerie : Json :=
  .obj [("timestamps", .arr [.str "t1", .str "t2"]),
        ("latencyIdle", .arr [.num 10, .num 20]),
        ("p50", .arr [.num 1, .num 2])]

/-- `aliasSerie` wrapped as a full response payload. -/
def aliasPayload : Json := .obj [("result", .obj [("serie_0", aliasSerie)])]

/-- A histogram with a single bucket. -/
def histogramOneBucket : Json :=
  .obj [("buckets", .arr [.str "0-10ms"]), ("values", .arr [.num 7])]

/-- A histogram with three buckets. -/
def histogramThreeBuckets : Json := .obj [("buckets", .arr [.num 1, .num 2, .num 3])]

/-- Sample points with idle latencies [10, null, 20, 30]. -/
def statsExamplePoints : List LatencyHistoryPoint :=
  [idlePoint (some 10), idlePoint none, idlePoint (some 20), idlePoint (some 30)]

/-- A histogram given as a raw array holding a null entry: a recognized
shape on which `parseLatencyFromHistogramEntry` throws. -/
def nullEntryHistogram : Json := .arr [.null]

/-- The three points the three-bucket histogram evaluates to on the
example context. -/
def threeBucketPoints : List LatencyHistoryPoint :=
  [{ timestamp := .iso 0, latencyIdle := none, latencyLoaded := none, jitterIdle := none },
   { timestamp := .iso 500, latencyIdle := none, latencyLoaded := none, jitterIdle := none },
   { timestamp := .iso 1000, latencyIdle := none, latencyLoaded := none, jitterIdle := none }]

/-!
Theorems. Helper lemmas come first; then one theorem per claim, with a
counterexample for corrected claims and a witness where a theorem
carries hypotheses.
-/

/-- Folding addition from `a` accumulates `a` plus the list sum. -/
theorem foldl_add_eq_add_sum (l : List ℚ) (a : ℚ) : l.foldl (· + ·) a = a + l.sum := by
  induction l generalizing a with
  | nil => simp
  | cons b t ih => simp [ih, add_assoc]

/-- Mapping a function of the index over an enumeration is mapping it
over the index range. -/
theorem map_enum_eq_map_range {α β : Type _} (es : List α) (g : ℕ → β) :
    es.enum.map (fun p => g p.1) = (List.range es.length).map g := by
  apply List.ext_getElem?
  intro i
  by_cases hi : i < es.length
  · simp [List.getElem?_enum, List.getElem?_range, hi, List.getElem?_eq_getElem hi]
  · have h1 : es[i]? = none := List.getElem?_eq_none (le_of_not_lt hi)
    have h2 : (List.range es.length)[i]? = none := by
      simpa using List.getElem?_eq_none (by simpa using le_of_not_lt hi)
    simp [List.getElem?_enum, h1, h2]

/-- C6: `computeStats` filters out null idleLatencyMs values and returns
their minimum, maximum, arithmetic mean and count; over idle latencies
[10, null, 20, 30] it yields min 10, max 30, avg 20, count 3; when the
non-null set is empty every aggregate is null and the count 0. -/
theorem C6_computeStats :
    (∀ points : List LatencyHistoryPoint,
      computeHistoryStats points =
        { min := (points.filterMap (·.latencyIdle)).min?
          max := (points.filterMap (·.latencyIdle)).max?
          avg :=
            if points.filterMap (·.latencyIdle) = [] then none
            else some ((points.filterMap (·.latencyIdle)).sum
              / ((points.filterMap (·.latencyIdle)).length : ℚ))
          samples := (points.filterMap (·.latencyIdle)).length })
    ∧ computeHistoryStats statsExamplePoints
        = { min := some 10, max := some 30, avg := some 20, samples := 3 }
    ∧ computeHistoryStats []
        = { min := none, max := none, avg := none, samples := 0 } := by
  refine ⟨fun points => ?_, ?_, rfl⟩
  · unfold computeHistoryStats
    cases hv : points.filterMap (·.latencyIdle) with
    | nil => simp [List.min?, List.max?]
    | cons v vs =>
      rw [if_neg (List.cons_ne_nil v vs)]
      simp [List.min?, List.max?, foldl_add_eq_add_sum]
  · simp [computeHistoryStats, statsExamplePoints, idlePoint]
    norm_num

/-- A successful histogram loop assigns the synthetic timestamps
startMs + step * (index + position). -/
theorem histTraverse_ok_map_timestamp (startMs step : ℚ) (l : List Json) :
    ∀ (index : ℕ) (pts : List LatencyHistoryPoint),
      histTraverse startMs step index l = .ok pts →
      pts.map (·.timestamp)
        = (List.range l.length).map
            (fun (k : ℕ) => Timestamp.iso (startMs + step * ((index : ℚ) + (k : ℚ)))) := by
  induction l with
  | nil =>
    intro index pts h
    simp only [histTraverse, JsOutcome.ok.injEq] at h
    simp [← h]
  | cons entry rest ih =>
    intro index pts h
    rw [histTraverse] at h
    cases hp : parseLatencyFromHistogramEntry entry with
    | typeError => rw [hp] at h; exact absurd h (by simp)
    | ok latency =>
      rw [hp] at h
      cases htr : histTraverse startMs step (index + 1) rest with
      | typeError => rw [htr] at h; exact absurd h (by simp)
      | ok points =>
        rw [htr] at h
        simp only [JsOutcome.ok.injEq] at h
        subst h
        have hrest := ih (index + 1) points htr
        simp only [List.map_cons, List.length_cons, List.range_succ_eq_map,
          List.map_map, hrest, List.cons.injEq]
        constructor
        · congr 1
          push_cast
          ring
        · apply List.map_congr_left
          intro k _
          simp only [Function.comp]
          congr 1
          push_cast
          ring

/-- C2 counterexample: on `{timestamps:["t1","t2"], latencyIdle:[10,20]}`
the normalizer returns idle latencies [null, null], not [10, 20]. -/
theorem C2_parallel_counterexample :
    (extractHistoryPoints parallelPayload exampleContext).map
        (fun pts => pts.map (·.latencyIdle))
        = .ok [none, none]
      ∧ (extractHistoryPoints parallelPayload exampleContext).map
          (fun pts => pts.map (·.latencyIdle))
        ≠ .ok [some 10, some 20] := by
  decide

/-- C2 as amended: on the parallel-array payload
`{timestamps:["t1","t2"], latencyIdle:[10,20]}` the normalizer returns
exactly two samples, in order, with timestamps "t1" and "t2" and both
idleLatencyMs null — the percentile extraction (keyed on the non-empty
`timestamps` with an absent `p50`) preempts the `latencyIdle` parallel
array, for every context. -/
theorem C2_parallel_amended (context : HistoryContext) :
    (extractHistoryPoints parallelPayload context).map
        (fun pts => pts.map (fun p => (p.timestamp.text, p.latencyIdle)))
      = .ok [(some "t1", none), (some "t2", none)] := rfl

/-- C3 counterexample: a single-bucket histogram on the range
[0 ms, 1000 ms] gets the synthetic timestamp 0 = rangeStart, not
rangeEnd = 1000 as claimed. -/
theorem C3_histogram_counterexample :
    (extractHistogramPoints histogramOneBucket exampleContext).map
        (fun pts => pts.map (fun p => p.timestamp.instant)) = .ok [some 0]
      ∧ exampleContext.dateEndMs = 1000
      ∧ some (0 : ℚ) ≠ some (1000 : ℚ) := by
  refine ⟨?_, rfl, by norm_num⟩
  simp [extractHistogramPoints, normalizeHistogramEntries, jsTruthyV, Json.get,
    Timestamp.instant, JsOutcome.map, histTraverse, parseLatencyFromHistogramEntry,
    Json.isNull, List.lookup, histogramOneBucket, exampleContext]

/-- C3 as amended: when the histogram shape evaluates without throwing
(a null entry throws a TypeError at the bare `entry.bucketStart`), N
entries produce exactly N samples whose synthetic timestamps start at
rangeStart and advance by (rangeEnd - rangeStart) / (N - 1) when N > 1
(so for N = 3 the first sample sits at the start and the last at the
end), and by 0 when N = 1, so a single sample's timestamp equals
rangeStart. -/
theorem C3_histogram_timestamps :
    (∀ (histogram : Json) (context : HistoryContext)
        (pts : List LatencyHistoryPoint),
      extractHistogramPoints histogram context = .ok pts →
      pts.length = (normalizeHistogramEntries histogram).length
        ∧ pts.map (·.timestamp)
          = (List.range (normalizeHistogramEntries histogram).length).map
              (fun (index : ℕ) => Timestamp.iso (context.dateStartMs
                + (if (normalizeHistogramEntries histogram).length > 1 then
                     (context.dateEndMs - context.dateStartMs)
                       / (((normalizeHistogramEntries histogram).length : ℚ) - 1)
                   else 0) * (index : ℚ))))
    ∧ (extractHistogramPoints histogramThreeBuckets exampleContext).map
        (fun pts => pts.map (fun p => p.timestamp.instant))
        = .ok [some 0, some 500, some 1000]
    ∧ (extractHistogramPoints histogramOneBucket exampleContext).map
        (fun pts => pts.map (fun p => p.timestamp.instant))
        = .ok [some exampleContext.dateStartMs]
    ∧ extractHistogramPoints nullEntryHistogram exampleContext = .typeError := by
  refine ⟨fun histogram context pts h => ?_, ?_, ?_, rfl⟩
  · unfold extractHistogramPoints at h
    by_cases he : (normalizeHistogramEntries histogram).isEmpty
    · have hnil : normalizeHistogramEntries histogram = [] := by
        simpa [List.isEmpty_iff] using he
      rw [hnil] at h
      simp only [List.isEmpty_nil, if_true, JsOutcome.ok.injEq] at h
      subst h
      simp [hnil]
    · rw [if_neg (by simpa using he)] at h
      have hmap := histTraverse_ok_map_timestamp _ _
        (normalizeHistogramEntries histogram) 0 pts h
      constructor
      · have hlen := congrArg List.length hmap
        simpa using hlen
      · rw [hmap]
        apply List.map_congr_left
        intro k _
        norm_num
  · simp [extractHistogramPoints, normalizeHistogramEntries, jsTruthyV, Json.get,
      Timestamp.instant, JsOutcome.map, histTraverse, parseLatencyFromHistogramEntry,
      Json.isNull, List.lookup, histogramThreeBuckets, exampleContext]
    norm_num
  · simp [extractHistogramPoints, normalizeHistogramEntries, jsTruthyV, Json.get,
      Timestamp.instant, JsOutcome.map, histTraverse, parseLatencyFromHistogramEntry,
      Json.isNull, List.lookup, histogramOneBucket, exampleContext]

/-- C3 witness: the three-bucket histogram evaluates successfully and
the general characterization instantiates on it. -/
theorem C3_histogram_timestamps_witness :
    threeBucketPoints.length = (normalizeHistogramEntries histogramThreeBuckets).length
      ∧ threeBucketPoints.map (·.timestamp)
        = (List.range (normalizeHistogramEntries histogramThreeBuckets).length).map
            (fun (index : ℕ) => Timestamp.iso (exampleContext.dateStartMs
              + (if (normalizeHistogramEntries histogramThreeBuckets).length > 1 then
                   (exampleContext.dateEndMs - exampleContext.dateStartMs)
                     / (((normalizeHistogramEntries histogramThreeBuckets).length : ℚ) - 1)
                 else 0) * (index : ℚ))) :=
  C3_histogram_timestamps.1 histogramThreeBuckets exampleContext threeBucketPoints
    (by simp [extractHistogramPoints, normalizeHistogramEntries, jsTruthyV, Json.get,
          histTraverse, parseLatencyFromHistogramEntry, firstParsedCandidate,
          parseHistogramNumber, Json.isNull, List.lookup,
          histogramThreeBuckets, exampleContext, threeBucketPoints]
        norm_num)

/-- The minimum fold lands on a member of the accumulator-plus-list. -/
theorem foldl_min_mem (vs : List ℚ) (v : ℚ) : vs.foldl min v ∈ v :: vs := by
  induction vs generalizing v with
  | nil => simp
  | cons b t ih =>
    simp only [List.foldl_cons]
    rcases List.mem_cons.mp (ih (min v b)) with h | h
    · rw [h]
      rcases min_choice v b with hm | hm <;> rw [hm] <;> simp
    · exact List.mem_cons_of_mem v (List.mem_cons_of_mem b h)

/-- The maximum fold lands on a member of the accumulator-plus-list. -/
theorem foldl_max_mem (vs : List ℚ) (v : ℚ) : vs.foldl max v ∈ v :: vs := by
  induction vs generalizing v with
  | nil => simp
  | cons b t ih =>
    simp only [List.foldl_cons]
    rcases List.mem_cons.mp (ih (max v b)) with h | h
    · rw [h]
      rcases max_choice v b with hm | hm <;> rw [hm] <;> simp
    · exact List.mem_cons_of_mem v (List.mem_cons_of_mem b h)

/-- The minimum fold bounds every member from below. -/
theorem foldl_min_le (vs : List ℚ) : ∀ (v : ℚ), ∀ x ∈ v :: vs, vs.foldl min v ≤ x := by
  induction vs with
  | nil =>
    intro v x hx
    rcases List.mem_cons.mp hx with rfl | hx2
    · simp
    · simp at hx2
  | cons b t ih =>
    intro v x hx
    simp only [List.foldl_cons]
    rcases List.mem_cons.mp hx with h1 | hx2
    · rw [h1]
      exact le_trans (ih (min v b) _ (List.mem_cons_self _ _)) (min_le_left _ _)
    · rcases List.mem_cons.mp hx2 with h2 | hx3
      · rw [h2]
        exact le_trans (ih (min v b) _ (List.mem_cons_self _ _)) (min_le_right _ _)
      · exact ih (min v b) x (List.mem_cons_of_mem _ hx3)

/-- The maximum fold bounds every member from above. -/
theorem le_foldl_max (vs : List ℚ) : ∀ (v : ℚ), ∀ x ∈ v :: vs, x ≤ vs.foldl max v := by
  induction vs with
  | nil =>
    intro v x hx
    rcases List.mem_cons.mp hx with rfl | hx2
    · simp
    · simp at hx2
  | cons b t ih =>
    intro v x hx
    simp only [List.foldl_cons]
    rcases List.mem_cons.mp hx with h1 | hx2
    · rw [h1]
      exact le_trans (le_max_left _ _) (ih (max v b) _ (List.mem_cons_self _ _))
    · rcases List.mem_cons.mp hx2 with h2 | hx3
      · rw [h2]
        exact le_trans (le_max_right _ _) (ih (max v b) _ (List.mem_cons_self _ _))
      · exact ih (max v b) x (List.mem_cons_of_mem _ hx3)

/-- C9: in the parallel-array extraction, the number of returned samples
equals the number of timestamp entries that stringify and trim to a
non-empty string; each metric column contributes its parsed entry at the
same index, or null when the column is shorter than the timestamp list;
a non-numeric or non-finite entry parses to null rather than dropping
the sample. -/
theorem C9_parallel_alignment :
    (∀ (tsItems liItems : List Json) (loadedRaw jitterRaw : Option Json),
      (indexAlignedPoints (toArrayOfStrings (some (.arr tsItems)))
          (toArrayOfNumbers (some (.arr liItems)))
          (toArrayOfNumbers loadedRaw) (toArrayOfNumbers jitterRaw)).length
        = (toArrayOfStrings (some (.arr tsItems))).length
      ∧ (toArrayOfStrings (some (.arr tsItems))).length
        = tsItems.countP (fun item => !(jsTrim (stringifyArrayItem item) == ""))
      ∧ (indexAlignedPoints (toArrayOfStrings (some (.arr tsItems)))
          (toArrayOfNumbers (some (.arr liItems)))
          (toArrayOfNumbers loadedRaw) (toArrayOfNumbers jitterRaw)).map (·.latencyIdle)
        = (List.range (toArrayOfStrings (some (.arr tsItems))).length).map
            (fun (index : ℕ) =>
              match liItems[index]? with
              | none => none
              | some item => parseNullableNumber (some item)))
    ∧ parseNullableNumber (some (.str "abc")) = none
    ∧ parseNullableNumber (some (.str "Infinity")) = none := by
  refine ⟨fun tsItems liItems loadedRaw jitterRaw => ⟨?_, ?_, ?_⟩, rfl, rfl⟩
  · simp [indexAlignedPoints]
  · unfold toArrayOfStrings
    rw [← List.countP_eq_length_filter, List.countP_map, List.countP_map]
    rfl
  · simp only [indexAlignedPoints, List.map_map]
    apply List.map_congr_left
    intro i _
    simp only [Function.comp, toArrayOfNumbers, List.getD_eq_getElem?_getD,
      List.getElem?_map]
    cases liItems[i]? <;> rfl

/-- C10: whenever `computeStats` reports a positive sample count, the
returned min, avg and max are all present with min ≤ avg ≤ max, and min
and max each occur among the non-null idle latencies of the input. -/
theorem C10_stats_bounds (points : List LatencyHistoryPoint)
    (h : 0 < (computeHistoryStats points).samples) :
    optLE (computeHistoryStats points).min (computeHistoryStats points).avg = true
      ∧ optLE (computeHistoryStats points).avg (computeHistoryStats points).max = true
      ∧ optMem (computeHistoryStats points).min (points.filterMap (·.latencyIdle)) = true
      ∧ optMem (computeHistoryStats points).max (points.filterMap (·.latencyIdle)) = true := by
  cases hv : points.filterMap (·.latencyIdle) with
  | nil => simp [computeHistoryStats, hv] at h
  | cons v vs =>
    have hlen : (0 : ℚ) < ((v :: vs).length : ℚ) := by
      have h0 : 0 < (v :: vs).length := Nat.succ_pos _
      exact_mod_cast h0
    have hmin : ∀ x ∈ v :: vs, vs.foldl min v ≤ x := foldl_min_le vs v
    have hmax : ∀ x ∈ v :: vs, x ≤ vs.foldl max v := le_foldl_max vs v
    have hsum_lower : ((v :: vs).length : ℚ) * vs.foldl min v ≤ (v :: vs).sum := by
      have := List.card_nsmul_le_sum (v :: vs) (vs.foldl min v) hmin
      simpa [nsmul_eq_mul] using this
    have hsum_upper : (v :: vs).sum ≤ ((v :: vs).length : ℚ) * vs.foldl max v := by
      have := List.sum_le_card_nsmul (v :: vs) (vs.foldl max v) hmax
      simpa [nsmul_eq_mul] using this
    have havg_lower : vs.foldl min v ≤ (v :: vs).sum / ((v :: vs).length : ℚ) := by
      rw [le_div_iff₀ hlen]
      calc vs.foldl min v * ((v :: vs).length : ℚ)
          = ((v :: vs).length : ℚ) * vs.foldl min v := by ring
        _ ≤ (v :: vs).sum := hsum_lower
    have havg_upper : (v :: vs).sum / ((v :: vs).length : ℚ) ≤ vs.foldl max v := by
      rw [div_le_iff₀ hlen]
      calc (v :: vs).sum ≤ ((v :: vs).length : ℚ) * vs.foldl max v := hsum_upper
        _ = vs.foldl max v * ((v :: vs).length : ℚ) := by ring
    refine ⟨?_, ?_, ?_, ?_⟩
    · simp only [computeHistoryStats, hv, foldl_add_eq_add_sum, zero_add, optLE,
        decide_eq_true_eq]
      exact havg_lower
    · simp only [computeHistoryStats, hv, foldl_add_eq_add_sum, zero_add, optLE,
        decide_eq_true_eq]
      exact havg_upper
    · simp only [computeHistoryStats, hv, optMem, decide_eq_true_eq]
      exact foldl_min_mem vs v
    · simp only [computeHistoryStats, hv, optMem, decide_eq_true_eq]
      exact foldl_max_mem vs v

/-- C10 witness: the bounds hold on the sample list [10, null, 20, 30]. -/
theorem C10_stats_bounds_witness :
    optLE (computeHistoryStats statsExamplePoints).min
        (computeHistoryStats statsExamplePoints).avg = true
      ∧ optLE (computeHistoryStats statsExamplePoints).avg
        (computeHistoryStats statsExamplePoints).max = true
      ∧ optMem (computeHistoryStats statsExamplePoints).min
        (statsExamplePoints.filterMap (·.latencyIdle)) = true
      ∧ optMem (computeHistoryStats statsExamplePoints).max
        (statsExamplePoints.filterMap (·.latencyIdle)) = true :=
  C10_stats_bounds statsExamplePoints (by decide)

/-- C8 counterexample: a snapshot request supplying the unknown region
id "bogus" alongside the known "aws-virginia" is answered with 200, not
400, even though an unknown region identifier was supplied. -/
theorem C8_unknown_region_counterexample :
    snapshotRouteStatus true (some "bogus,aws-virginia") = 200
      ∧ "bogus" ∈ requestedRegionIds (some "bogus,aws-virginia")
      ∧ CLOUD_REGIONS.find? (fun item => item.id == "bogus") = none
      ∧ (200 : ℕ) ≠ 400 := by
  decide

/-- C8 as amended: with the token configured, the history endpoint's
guard phase answers 400 when its `region` parameter matches no known
region, and for a known region it proceeds to the upstream request,
whose status (possibly a forwarded upstream 400) the guards do not
determine; the snapshot endpoint answers 400 exactly when no id of its
`regions` list matches a known region, and 200 otherwise (unknown ids
mixed with known ones are silently dropped); without the token each
endpoint short-circuits to 500 before any region check. -/
theorem C8_unknown_region_amended :
    (∀ (regionParam : Option String),
      CLOUD_REGIONS.find? (fun item => item.id == regionParam.getD "") = none →
      historyRouteDecision true regionParam = .unknownRegion
        ∧ historyStatus (historyRouteDecision true regionParam) = some 400)
    ∧ (∀ (regionParam : Option String) (region : CloudRegion),
        CLOUD_REGIONS.find? (fun item => item.id == regionParam.getD "")
          = some region →
        historyRouteDecision true regionParam = .contactUpstream region
          ∧ historyStatus (historyRouteDecision true regionParam) = none)
    ∧ (∀ (regionsParam : Option String),
        snapshotRouteStatus true regionsParam = 400
          ↔ knownRegionsOf regionsParam = [])
    ∧ (∀ (regionsParam : Option String),
        knownRegionsOf regionsParam ≠ [] →
        snapshotRouteStatus true regionsParam = 200)
    ∧ (∀ (regionParam : Option String),
        historyRouteDecision false regionParam = .tokenError
          ∧ historyStatus (historyRouteDecision false regionParam) = some 500)
    ∧ (∀ (regionsParam : Option String),
        snapshotRouteStatus false regionsParam = 500) := by
  refine ⟨fun regionParam h => ⟨?_, ?_⟩, fun regionParam region h => ⟨?_, ?_⟩,
    fun regionsParam => ?_, fun regionsParam h => ?_,
    fun regionParam => ⟨rfl, rfl⟩, fun regionsParam => rfl⟩
  · simp [historyRouteDecision, h]
  · simp [historyRouteDecision, h, historyStatus]
  · simp [historyRouteDecision, h]
  · simp [historyRouteDecision, h, historyStatus]
  · by_cases h : knownRegionsOf regionsParam = []
    · simp [snapshotRouteStatus, h]
    · simp [snapshotRouteStatus, List.isEmpty_iff, h]
  · simp [snapshotRouteStatus, List.isEmpty_iff, h]

/-- C8 witness: concrete decisions — an unknown history region, a known
history region, an unknown-only snapshot list, a known snapshot region,
and the missing-token short circuits. -/
theorem C8_unknown_region_amended_witness :
    (historyRouteDecision true (some "bogus") = .unknownRegion
        ∧ historyStatus (historyRouteDecision true (some "bogus")) = some 400)
      ∧ (historyRouteDecision true (some "aws-virginia")
            = .contactUpstream ⟨"aws-virginia", "US"⟩
          ∧ historyStatus (historyRouteDecision true (some "aws-virginia")) = none)
      ∧ (snapshotRouteStatus true (some "zzz") = 400
          ↔ knownRegionsOf (some "zzz") = [])
      ∧ snapshotRouteStatus true (some "aws-virginia") = 200
      ∧ (historyRouteDecision false none = .tokenError
          ∧ historyStatus (historyRouteDecision false none) = some 500)
      ∧ snapshotRouteStatus false none = 500 :=
  ⟨C8_unknown_region_amended.1 (some "bogus") (by decide),
   C8_unknown_region_amended.2.1 (some "aws-virginia") ⟨"aws-virginia", "US"⟩
     (by decide),
   C8_unknown_region_amended.2.2.1 (some "zzz"),
   C8_unknown_region_amended.2.2.2.1 (some "aws-virginia") (by decide),
   C8_unknown_region_amended.2.2.2.2.1 none,
   C8_unknown_region_amended.2.2.2.2.2 none⟩

/-- Objects are always truthy. -/
theorem jsTruthyV_obj (fields : List (String × Json)) :
    jsTruthyV (Json.obj fields) = true := rfl

/-- Arrays are always truthy. -/
theorem jsTruthyV_arr (items : List Json) :
    jsTruthyV (Json.arr items) = true := rfl

/-- An empty percentile series means the timestamp column was empty. -/
theorem percentile_isEmpty_timestamps (serie : Json)
    (h : (extractPercentileSeries serie).isEmpty = true) :
    toArrayOfStrings (serie.get "timestamps") = [] := by
  unfold extractPercentileSeries at h
  by_cases hts : (toArrayOfStrings (serie.get "timestamps")).isEmpty
  · exact List.isEmpty_iff.mp hts
  · rw [if_neg hts] at h
    exfalso
    have hlen : (indexAlignedPoints (toArrayOfStrings (serie.get "timestamps"))
        (toArrayOfNumbers (serie.get "p50")) (toArrayOfNumbers (serie.get "p75"))
        (toArrayOfNumbers (serie.get "p25"))).length
        = (toArrayOfStrings (serie.get "timestamps")).length := by
      simp [indexAlignedPoints]
    rw [List.isEmpty_iff.mp h] at hlen
    exact hts (by simp [List.isEmpty_iff, List.length_eq_zero.mp hlen.symm])

/-- When the percentile series is empty the parallel-array loop runs
over an empty timestamp list and returns the same empty result, for any
metric columns: the alias-based parallel path can never contribute a
sample that the percentile path did not. -/
theorem parallel_of_percentile_nil (serie : Json)
    (idleVals loadedVals jitterVals : List (Option ℚ))
    (hpp : extractPercentileSeries serie = []) :
    indexAlignedPoints (toArrayOfStrings (serie.get "timestamps"))
        idleVals loadedVals jitterVals
      = extractPercentileSeries serie := by
  rw [hpp, percentile_isEmpty_timestamps serie (List.isEmpty_iff.mpr hpp)]
  rfl

/-- A truthy non-array `serie_0` is always answered by the percentile
series alone, whatever `histogram_0` holds. -/
theorem serieNonArrayClause (serie : Json) (histogram : Option Json)
    (context : HistoryContext)
    (htruthy : jsTruthyV serie = true) (hnotarr : serie.isArr = false) :
    extractHistoryPoints (payloadWith (some serie) histogram) context
      = .ok (extractPercentileSeries serie) := by
  cases serie with
  | null => simp [jsTruthyV] at htruthy
  | arr items => simp [Json.isArr] at hnotarr
  | bool b =>
    rw [show b = true by simpa [jsTruthyV] using htruthy]
    cases histogram <;>
      simp [extractHistoryPoints, payloadWith, Json.get, optGet, List.lookup,
        Json.isNull, jsTruthy, jsTruthyV] <;>
      exact fun hpp => parallel_of_percentile_nil _ _ _ _ hpp
  | num q =>
    have hq : ¬ q = 0 := by simpa [jsTruthyV] using htruthy
    cases histogram <;>
      simp [extractHistoryPoints, payloadWith, Json.get, optGet, List.lookup,
        Json.isNull, jsTruthy, jsTruthyV, hq] <;>
      exact fun hpp => parallel_of_percentile_nil _ _ _ _ hpp
  | str s =>
    have hs : ¬ s = "" := by simpa [jsTruthyV] using htruthy
    cases histogram <;>
      simp [extractHistoryPoints, payloadWith, Json.get, optGet, List.lookup,
        Json.isNull, jsTruthy, jsTruthyV, hs] <;>
      exact fun hpp => parallel_of_percentile_nil _ _ _ _ hpp
  | obj fields =>
    cases histogram <;>
      simp [extractHistoryPoints, payloadWith, Json.get, optGet, List.lookup,
        Json.isNull, jsTruthy, jsTruthyV] <;>
      exact fun hpp => parallel_of_percentile_nil _ _ _ _ hpp

/-- C1 counterexample: on a serie carrying both `latencyIdle` [10, 20]
and `p50` [1, 2], the idle latencies come from `p50`, so the claimed
alias priority latencyIdle before p50 does not hold. -/
theorem C1_alias_priority_counterexample :
    (extractHistoryPoints aliasPayload exampleContext).map
        (fun pts => pts.map (·.latencyIdle))
        = .ok [some 1, some 2]
      ∧ (extractHistoryPoints aliasPayload exampleContext).map
          (fun pts => pts.map (·.latencyIdle))
        ≠ .ok [some 10, some 20] := by
  decide

/-- C1 as amended: exactly one shape is consumed per call, but the
priorities are: a truthy array `serie_0` is consumed as shape (b)
whatever `histogram_0` holds; a truthy non-array `serie_0` is consumed
by the percentile series (timestamps with p50/p75/p25) alone — the
latencyIdle/latency_idle/values parallel aliases can never contribute,
and an empty result does NOT fall back to the histogram; the histogram
shape (c) is consumed exactly when `serie_0` is falsy or absent and
`histogram_0` is truthy; with both falsy or absent the result is
empty. -/
theorem C1_shape_dispatch :
    (∀ (entries : List Json) (histogram : Option Json) (context : HistoryContext),
      extractHistoryPoints (payloadWith (some (.arr entries)) histogram) context
        = .ok (entries.filterMap serieEntryPoint))
    ∧ (∀ (serie : Json) (histogram : Option Json) (context : HistoryContext),
        jsTruthyV serie = true → serie.isArr = false →
        extractHistoryPoints (payloadWith (some serie) histogram) context
          = .ok (extractPercentileSeries serie))
    ∧ (∀ (serieOpt : Option Json) (histogram : Json) (context : HistoryContext),
        jsTruthy serieOpt = false → jsTruthyV histogram = true →
        extractHistoryPoints (payloadWith serieOpt (some histogram)) context
          = extractHistogramPoints histogram context)
    ∧ (∀ (serieOpt histogramOpt : Option Json) (context : HistoryContext),
        jsTruthy serieOpt = false → jsTruthy histogramOpt = false →
        extractHistoryPoints (payloadWith serieOpt histogramOpt) context
          = .ok []) := by
  refine ⟨fun entries histogram context => ?_,
    fun serie histogram context htruthy hnotarr =>
      serieNonArrayClause serie histogram context htruthy hnotarr,
    fun serieOpt histogram context hfalsy htruthy => ?_,
    fun serieOpt histogramOpt context h1 h2 => ?_⟩
  · cases histogram <;>
      simp [extractHistoryPoints, payloadWith, Json.get, optGet, List.lookup,
        Json.isNull, jsTruthy, jsTruthyV]
  · cases serieOpt with
    | none =>
      simp [extractHistoryPoints, payloadWith, Json.get, optGet, List.lookup,
        Json.isNull, jsTruthy, jsTruthyV_obj, htruthy]
    | some serie =>
      have hf : jsTruthyV serie = false := by simpa [jsTruthy] using hfalsy
      simp [extractHistoryPoints, payloadWith, Json.get, optGet, List.lookup,
        Json.isNull, jsTruthy, jsTruthyV_obj, htruthy, hf]
  · cases serieOpt with
    | none =>
      cases histogramOpt with
      | none =>
        simp [extractHistoryPoints, payloadWith, Json.get, optGet, List.lookup,
          Json.isNull, jsTruthy, jsTruthyV_obj]
      | some hist =>
        have hf2 : jsTruthyV hist = false := by simpa [jsTruthy] using h2
        simp [extractHistoryPoints, payloadWith, Json.get, optGet, List.lookup,
          Json.isNull, jsTruthy, jsTruthyV_obj, hf2]
    | some serie =>
      have hf1 : jsTruthyV serie = false := by simpa [jsTruthy] using h1
      cases histogramOpt with
      | none =>
        simp [extractHistoryPoints, payloadWith, Json.get, optGet, List.lookup,
          Json.isNull, jsTruthy, jsTruthyV_obj, hf1]
      | some hist =>
        have hf2 : jsTruthyV hist = false := by simpa [jsTruthy] using h2
        simp [extractHistoryPoints, payloadWith, Json.get, optGet, List.lookup,
          Json.isNull, jsTruthy, jsTruthyV_obj, hf1, hf2]

/-- C1 witness: the dispatch clauses at concrete inputs — an array serie
beats a present histogram; a non-array serie with both alias and
percentile columns yields the percentile series; a histogram alone is
consumed; an empty result object yields []. -/
theorem C1_shape_dispatch_witness :
    extractHistoryPoints (payloadWith (some (.arr [])) (some histogramThreeBuckets))
        exampleContext = .ok []
      ∧ extractHistoryPoints (payloadWith (some aliasSerie) (some histogramThreeBuckets))
          exampleContext = .ok (extractPercentileSeries aliasSerie)
      ∧ extractHistoryPoints (payloadWith none (some histogramThreeBuckets))
          exampleContext
        = extractHistogramPoints histogramThreeBuckets exampleContext
      ∧ extractHistoryPoints (payloadWith none none) exampleContext = .ok [] :=
  ⟨C1_shape_dispatch.1 [] (some histogramThreeBuckets) exampleContext,
   C1_shape_dispatch.2.1 aliasSerie (some histogramThreeBuckets) exampleContext
     (by decide) (by decide),
   C1_shape_dispatch.2.2.1 none histogramThreeBuckets exampleContext rfl (by decide),
   C1_shape_dispatch.2.2.2 none none exampleContext rfl rfl⟩

/-- The JS remainder of a nonnegative dividend by a positive divisor
lies in [0, divisor). -/
theorem jsMod_bounds (a b : ℝ) (ha : 0 ≤ a) (hb : 0 < b) :
    0 ≤ jsMod a b ∧ jsMod a b < b := by
  unfold jsMod jsTrunc
  rw [if_pos (div_nonneg ha hb.le)]
  have key : a - b * ((⌊a / b⌋ : ℤ) : ℝ) = b * Int.fract (a / b) := by
    rw [Int.fract, mul_sub, mul_div_cancel₀ a hb.ne']
  rw [key]
  constructor
  · exact mul_nonneg hb.le (Int.fract_nonneg _)
  · calc b * Int.fract (a / b) < b * 1 :=
        mul_lt_mul_of_pos_left (Int.fract_lt_one _) hb
      _ = b := mul_one b

/-- The longitude normalization formula stays within [-180, 180] for a
center longitude within [-180, 180] and a bearing-offset angle within
the atan2 range. -/
theorem lng_formula_bounds (c1 A : ℝ) (hc1 : -180 ≤ c1) (hc2 : c1 ≤ 180)
    (hA1 : -Real.pi < A) (hA2 : A ≤ Real.pi) :
    -180 ≤ jsMod ((c1 * Real.pi / 180 + A) * 180 / Real.pi + 540) 360 - 180
      ∧ jsMod ((c1 * Real.pi / 180 + A) * 180 / Real.pi + 540) 360 - 180 ≤ 180 := by
  have hpi := Real.pi_pos
  have hcr1 : -Real.pi ≤ c1 * Real.pi / 180 := by nlinarith
  have hsum1 : -(2 * Real.pi) < c1 * Real.pi / 180 + A := by linarith
  have hL : 0 ≤ (c1 * Real.pi / 180 + A) * 180 / Real.pi + 540 := by
    have h1 : -(2 * Real.pi) * 180 < (c1 * Real.pi / 180 + A) * 180 :=
      mul_lt_mul_of_pos_right hsum1 (by norm_num)
    have hinv : (0 : ℝ) < Real.pi⁻¹ := inv_pos.mpr hpi
    have h2 := mul_lt_mul_of_pos_right h1 hinv
    have h3 : -(2 * Real.pi) * 180 * Real.pi⁻¹ = -360 := by
      field_simp
      ring
    rw [h3] at h2
    rw [div_eq_mul_inv]
    linarith
  have hmod := jsMod_bounds _ 360 hL (by norm_num)
  constructor <;> linarith [hmod.1, hmod.2]

/-- `Math.atan2` stays within (-pi, pi]. -/
theorem atan2_bounds (y x : ℝ) : -Real.pi < atan2 y x ∧ atan2 y x ≤ Real.pi :=
  Set.mem_Ioc.mp (Complex.arg_mem_Ioc ⟨x, y⟩)

/-- The longitude of every ring point is the normalization formula
applied to the center longitude plus an angle in the atan2 range. -/
theorem circlePoint_fst (center : ℝ × ℝ) (radiusKm : ℝ) (steps i : ℕ) :
    ∃ A, -Real.pi < A ∧ A ≤ Real.pi
      ∧ (circlePoint center radiusKm steps i).1
        = jsMod ((center.1 * Real.pi / 180 + A) * 180 / Real.pi + 540) 360 - 180 := by
  refine ⟨atan2
      (Real.sin (2 * Real.pi * (i : ℝ) / (steps : ℝ))
        * Real.sin (radiusKm / EARTH_RADIUS_KM) * Real.cos (center.2 * Real.pi / 180))
      (Real.cos (radiusKm / EARTH_RADIUS_KM)
        - Real.sin (center.2 * Real.pi / 180)
          * Real.sin (Real.arcsin (Real.sin (center.2 * Real.pi / 180)
              * Real.cos (radiusKm / EARTH_RADIUS_KM)
            + Real.cos (center.2 * Real.pi / 180)
              * Real.sin (radiusKm / EARTH_RADIUS_KM)
              * Real.cos (2 * Real.pi * (i : ℝ) / (steps : ℝ))))),
    (atan2_bounds _ _).1, (atan2_bounds _ _).2, rfl⟩

/-- C4: for every center, radius > 0 and segment count at least 3, the
ring generator returns exactly segments + 1 points, and the first and
last points are identical (real-number semantics: the bearings 0 and
2 pi give the same destination point exactly). -/
theorem C4_ring_closed (center : ℝ × ℝ) (radiusKm : ℝ) (steps : ℕ)
    (hr : 0 < radiusKm) (hs : 3 ≤ steps) :
    (generateCircleCoordinates center radiusKm steps).length = steps + 1
      ∧ (generateCircleCoordinates center radiusKm steps).head?
        = (generateCircleCoordinates center radiusKm steps).getLast? := by
  constructor
  · simp [generateCircleCoordinates]
  · have hhead : (generateCircleCoordinates center radiusKm steps).head?
        = some (circlePoint center radiusKm steps 0) := by
      rw [generateCircleCoordinates, List.range_succ_eq_map]
      simp
    have hlast : (generateCircleCoordinates center radiusKm steps).getLast?
        = some (circlePoint center radiusKm steps steps) := by
      rw [generateCircleCoordinates, List.range_succ, List.map_append]
      simp
    rw [hhead, hlast]
    have hsne : (steps : ℝ) ≠ 0 := Nat.cast_ne_zero.mpr (by omega)
    have hb0 : 2 * Real.pi * ((0 : ℕ) : ℝ) / (steps : ℝ) = 0 := by simp
    have hbn : 2 * Real.pi * ((steps : ℕ) : ℝ) / (steps : ℝ) = 2 * Real.pi := by
      field_simp
    unfold circlePoint
    rw [hb0, hbn]
    simp only [Real.sin_two_pi, Real.cos_two_pi, Real.sin_zero, Real.cos_zero]

/-- C4 witness: a unit-radius ring around (0, 0) with 4 segments. -/
theorem C4_ring_closed_witness :
    (generateCircleCoordinates (0, 0) 1 4).length = 4 + 1
      ∧ (generateCircleCoordinates (0, 0) 1 4).head?
        = (generateCircleCoordinates (0, 0) 1 4).getLast? :=
  C4_ring_closed (0, 0) 1 4 (by norm_num) (by norm_num)

/-- C5: every longitude produced by the ring generator lies within
[-180, 180], the normalization being `((lng + 540) % 360) - 180`, for
every valid center, radius > 0 and segment count at least 3. -/
theorem C5_lng_normalized (center : ℝ × ℝ) (radiusKm : ℝ) (steps : ℕ)
    (hlng1 : -180 ≤ center.1) (hlng2 : center.1 ≤ 180)
    (hlat1 : -90 ≤ center.2) (hlat2 : center.2 ≤ 90)
    (hr : 0 < radiusKm) (hs : 3 ≤ steps) :
    lngWithinRange (generateCircleCoordinates center radiusKm steps) := by
  intro p hp
  simp only [generateCircleCoordinates, List.mem_map] at hp
  obtain ⟨i, _, rfl⟩ := hp
  obtain ⟨A, hA1, hA2, heq⟩ := circlePoint_fst center radiusKm steps i
  rw [heq]
  exact lng_formula_bounds center.1 A hlng1 hlng2 hA1 hA2

/-- C5 witness: the bounds hold for the unit ring around (0, 0). -/
theorem C5_lng_normalized_witness :
    lngWithinRange (generateCircleCoordinates (0, 0) 1 4) :=
  C5_lng_normalized (0, 0) 1 4 (by norm_num) (by norm_num) (by norm_num)
    (by norm_num) (by norm_num) (by norm_num)
